import Mathlib

/-!
Verification of the `sag` TTS command-line client: a shallow embedding of its
voice-resolution engine, tee/playback pipeline, label/query ranking, voice
metadata cache hydration and MiniMax event-stream decoder, with theorems
checking the natural-language specification against the code.

Modelling conventions:
* Go strings are Lean `String`s; helpers (`lowerStr`, `trimStr`, `strContains`,
  ...) mirror the `strings` package functions at ASCII fidelity (Go's Unicode
  case tables and space classes agree with these on ASCII data, which is all
  the concrete scenarios use).
* Byte streams are `List Nat` (one entry per byte, values < 256).
* Fallible Go calls `(T, error)` become `Except String T`; network
  collaborators (`ListVoices`, `GetVoice`, `StreamTTS`, playback) are passed in
  as explicit arguments/oracles, and the embeddings count how many network
  calls they perform where a claim speaks about that.
-/

/-! ## String helpers (mirroring Go's `strings` package) -/

/-- `strings.ToLower`, restricted to ASCII case mapping. -/
def lowerStr (s : String) : String :=
  String.mk (s.toList.map Char.toLower)

/-- Whitespace class used by `strings.TrimSpace` (ASCII subset). -/
def isSpaceChar (c : Char) : Bool :=
  c = ' ' || c = '\t' || c = '\n' || c = '\r'

def trimCharsLeft (l : List Char) : List Char :=
  l.dropWhile isSpaceChar

/-- `strings.TrimSpace`. -/
def trimStr (s : String) : String :=
  String.mk ((trimCharsLeft ((trimCharsLeft s.toList.reverse).reverse)))

/-- `strings.Contains` on rune lists: does `sub` occur inside `l`? -/
def listContainsSub (l sub : List Char) : Bool :=
  match l with
  | [] => sub.isEmpty
  | _ :: rest => sub.isPrefixOf l || listContainsSub rest sub

/-- `strings.Contains s sub`. -/
def strContains (s sub : String) : Bool :=
  listContainsSub s.toList sub.toList

/-- `strings.HasPrefix s pre`. -/
def strHasPrefix (s pre : String) : Bool :=
  pre.toList.isPrefixOf s.toList

/-- Byte length of a string, as Go's `len`. -/
def strByteLen (s : String) : Nat :=
  s.utf8ByteSize

/-! ## Data model

The current ElevenLabs client file is represented in the repository only by an
older revision and its tests; the `Voice` record below therefore follows the
spec's data model (§3): id, display name, category, description, labels,
preview URL.  Labels (`map[string]string`) are modelled as association lists
whose order is the (arbitrary but fixed) iteration order of the Go map. -/

structure Voice where
  voiceID : String
  name : String
  category : String
  description : String
  labels : List (String × String)
  previewURL : String
deriving Repr, DecidableEq

/-- `minimax.Voice` (internal/minimax/client.go). -/
structure MiniMaxVoice where
  voiceID : String
  name : String
  category : String
  description : String
deriving Repr, DecidableEq

/-! ## Voice Resolution Engine (cmd speak: resolveVoice / resolveMiniMaxVoice) -/

/-- `looksLikeVoiceID` (speak.go): byte length at least 15 and no space. -/
def looksLikeVoiceID (voiceInput : String) : Bool :=
  strByteLen voiceInput ≥ 15 && !(voiceInput.toList.contains ' ')

/-- `containsDigit` (speak.go). -/
def containsDigit (s : String) : Bool :=
  s.toList.any (fun r => '0' ≤ r && r ≤ '9')

deriving instance DecidableEq for Except

/-- Result of a resolution run: the returned `(string, error)` pair, the
notices printed to stderr, whether the voice table was printed to stdout, and
how many `ListVoices` network calls were made. -/
structure ResolveOut where
  result : Except String String
  notices : List String
  listed : Bool
  fetches : Nat
deriving Repr, DecidableEq

def usingVoiceNotice (name id : String) : String :=
  "using voice " ++ name ++ " (" ++ id ++ ")"

def defaultingNotice (name id : String) : String :=
  "defaulting to voice " ++ name ++ " (" ++ id ++ ")"

def voiceNotFoundMsg (input : String) : String :=
  "voice \"" ++ input ++ "\" not found; try \x27sag voices\x27 or -v \x27?\x27"

def noVoicesElevenMsg : String :=
  "no voices available; specify --voice or set ELEVENLABS_VOICE_ID"

def noVoicesMiniMaxMsg : String :=
  "no voices available; specify --voice or set MINIMAX_VOICE_ID"

/-- Case-insensitive exact name match used by `resolveVoice`. -/
def nameExact (input : String) (v : Voice) : Bool :=
  lowerStr v.name == lowerStr input

/-- Case-insensitive substring name match used by `resolveVoice`. -/
def nameSub (input : String) (v : Voice) : Bool :=
  strContains (lowerStr v.name) (lowerStr input)

/-- `resolveVoice` (speak.go).  `listVoices` stands for the provider's
`ListVoices` call: its fixed outcome for this invocation. -/
def resolveVoice (listVoices : Except String (List Voice))
    (voiceInput : String) (forceID : Bool) : ResolveOut :=
  let input := trimStr voiceInput
  if input = "" then
    match listVoices with
    | .error e =>
        ⟨.error ("voice not specified and failed to fetch voices: " ++ e), [], false, 1⟩
    | .ok [] => ⟨.error noVoicesElevenMsg, [], false, 1⟩
    | .ok (v :: _) => ⟨.ok v.voiceID, [defaultingNotice v.name v.voiceID], false, 1⟩
  else if input = "?" then
    match listVoices with
    | .error e => ⟨.error e, [], false, 1⟩
    | .ok _ => ⟨.ok "", [], true, 1⟩
  else if forceID then
    ⟨.ok input, [], false, 0⟩
  else if looksLikeVoiceID input then
    if containsDigit input then
      ⟨.ok input, [], false, 0⟩
    else
      match listVoices with
      | .error e => ⟨.error e, [], false, 1⟩
      | .ok voices =>
        match voices.find? (nameExact input) with
        | some v => ⟨.ok v.voiceID, [usingVoiceNotice v.name v.voiceID], false, 1⟩
        | none => ⟨.ok input, [], false, 1⟩
  else
    match listVoices with
    | .error e => ⟨.error e, [], false, 1⟩
    | .ok voices =>
      match voices.find? (nameExact input) with
      | some v => ⟨.ok v.voiceID, [usingVoiceNotice v.name v.voiceID], false, 1⟩
      | none =>
        match voices.find? (nameSub input) with
        | some v => ⟨.ok v.voiceID, [usingVoiceNotice v.name v.voiceID], false, 1⟩
        | none => ⟨.error (voiceNotFoundMsg input), [], false, 1⟩

/-- Exact id-or-name match used by `resolveMiniMaxVoice`. -/
def mmExact (input : String) (v : MiniMaxVoice) : Bool :=
  lowerStr v.voiceID == lowerStr input || lowerStr v.name == lowerStr input

/-- Case-insensitive substring name match used by `resolveMiniMaxVoice`. -/
def mmSub (input : String) (v : MiniMaxVoice) : Bool :=
  strContains (lowerStr v.name) (lowerStr input)

/-- `resolveMiniMaxVoice` (speak.go). -/
def resolveMiniMaxVoice (listVoices : Except String (List MiniMaxVoice))
    (voiceInput : String) (forceID : Bool) : ResolveOut :=
  let input := trimStr voiceInput
  if input = "" then
    match listVoices with
    | .error e =>
        ⟨.error ("voice not specified and failed to fetch voices: " ++ e), [], false, 1⟩
    | .ok [] => ⟨.error noVoicesMiniMaxMsg, [], false, 1⟩
    | .ok (v :: _) => ⟨.ok v.voiceID, [defaultingNotice v.name v.voiceID], false, 1⟩
  else if input = "?" then
    match listVoices with
    | .error e => ⟨.error e, [], false, 1⟩
    | .ok _ => ⟨.ok "", [], true, 1⟩
  else if forceID then
    ⟨.ok input, [], false, 0⟩
  else
    match listVoices with
    | .error _ => ⟨.ok input, [], false, 1⟩
    | .ok voices =>
      match voices.find? (mmExact input) with
      | some v => ⟨.ok v.voiceID, [usingVoiceNotice v.name v.voiceID], false, 1⟩
      | none =>
        match voices.find? (mmSub input) with
        | some v => ⟨.ok v.voiceID, [usingVoiceNotice v.name v.voiceID], false, 1⟩
        | none => ⟨.ok input, [], false, 1⟩

/-! ## Tee/Playback Pipeline (cmd speak: streamAndPlay / convertAndPlay and
the MiniMax variants)

The concurrency of the play branch (a background `io.Copy` into a
`MultiWriter(file, pipe)` joined with the playback consumer over two
buffered channels) is embedded by its deterministic data flow: the copy
delivers the source's bytes to every sink and returns the source's terminal
read error; the playback consumer sees exactly the delivered bytes; the join
then reports the copy's count, preferring the copy's error over playback's. -/

/-- A streaming source: the bytes it delivers, then an optional terminal read
error (`io.Copy` reports the bytes copied before the error). -/
structure StreamSrc where
  bytes : List Nat
  readErr : Option String
deriving Repr, DecidableEq

/-- Outcome of one tee-pipeline run: the `(int64, error)` pair returned to the
caller, bytes written to the file sink / delivered to playback (if those sinks
were active), and the number of synthesize network calls issued. -/
structure TeeOut where
  count : Nat
  err : Option String
  fileBytes : Option (List Nat)
  playedBytes : Option (List Nat)
  netCalls : Nat
deriving Repr, DecidableEq

def nothingToDoMsg : String := "nothing to do: enable --play or provide --output"

/-- `streamAndPlay` (speak.go).  `streamResp` is the outcome of the
`client.StreamTTS` network call, `playFn` the playback engine's verdict on the
bytes it consumes. -/
def streamAndPlay (streamResp : Except String StreamSrc)
    (outputPath : String) (play : Bool)
    (playFn : List Nat → Option String) : TeeOut :=
  match streamResp with
  | .error e => ⟨0, some e, none, none, 1⟩
  | .ok src =>
    let fileB : Option (List Nat) := if outputPath = "" then none else some src.bytes
    if play then
      let copyErr := src.readErr
      let playErr := playFn src.bytes
      ⟨src.bytes.length,
        match copyErr with
        | some e => some e
        | none => playErr,
        fileB, some src.bytes, 1⟩
    else if outputPath = "" then
      ⟨0, some nothingToDoMsg, none, none, 1⟩
    else
      ⟨src.bytes.length, src.readErr, fileB, none, 1⟩

/-- `streamAndPlayMiniMax` (speak.go); structurally identical to
`streamAndPlay` but calling the MiniMax client. -/
def streamAndPlayMiniMax (streamResp : Except String StreamSrc)
    (outputPath : String) (play : Bool)
    (playFn : List Nat → Option String) : TeeOut :=
  match streamResp with
  | .error e => ⟨0, some e, none, none, 1⟩
  | .ok src =>
    let fileB : Option (List Nat) := if outputPath = "" then none else some src.bytes
    if play then
      let copyErr := src.readErr
      let playErr := playFn src.bytes
      ⟨src.bytes.length,
        match copyErr with
        | some e => some e
        | none => playErr,
        fileB, some src.bytes, 1⟩
    else if outputPath = "" then
      ⟨0, some nothingToDoMsg, none, none, 1⟩
    else
      ⟨src.bytes.length, src.readErr, fileB, none, 1⟩

/-- `convertAndPlay` (speak.go): non-streaming variant; `convertResp` is the
outcome of the `client.ConvertTTS` network call. -/
def convertAndPlay (convertResp : Except String (List Nat))
    (outputPath : String) (play : Bool)
    (playFn : List Nat → Option String) : TeeOut :=
  match convertResp with
  | .error e => ⟨0, some e, none, none, 1⟩
  | .ok data =>
    let fileB : Option (List Nat) := if outputPath = "" then none else some data
    if play then
      ⟨data.length, playFn data, fileB, some data, 1⟩
    else if outputPath = "" then
      ⟨data.length, some nothingToDoMsg, none, none, 1⟩
    else
      ⟨data.length, none, fileB, none, 1⟩

/-! ## Label filtering and query ranking (cmd/voices_query.go) -/

structure LabelFilter where
  key : String
  value : String
deriving Repr, DecidableEq

/-- `parseLabelFilters` (voices_query.go). -/
def parseLabelFilters (filters : List String) : Except String (List LabelFilter) :=
  match filters with
  | [] => .ok []
  | _ =>
    let step := fun (acc : Except String (List LabelFilter)) (raw : String) =>
      match acc with
      | .error e => .error e
      | .ok parsed =>
        let item := trimStr raw
        if item = "" then .ok parsed
        else
          -- strings.SplitN(item, "=", 2): split at the first '=' only.
          let parts := item.toList.span (fun c => c ≠ '=')
          match parts.2 with
          | [] => .error ("label filter \"" ++ raw ++ "\" must be key=value")
          | _ :: vchars =>
            let key := lowerStr (trimStr (String.mk parts.1))
            let value := lowerStr (trimStr (String.mk vchars))
            if key = "" ∨ value = "" then
              .error ("label filter \"" ++ raw ++ "\" must be key=value")
            else .ok (parsed ++ [⟨key, value⟩])
    filters.foldl step (.ok [])

/-- `labelValue` (voices_query.go): exact map lookup first, then a
case-insensitive scan (the Go map's iteration order is the list order). -/
def labelValue (labels : List (String × String)) (key : String) : Option String :=
  match labels.lookup key with
  | some v => some v
  | none => (labels.find? (fun p => lowerStr p.1 == key)).map (·.2)

/-- `matchesAllLabels` (voices_query.go). -/
def matchesAllLabels (voice : Voice) (filters : List LabelFilter) : Bool :=
  if filters.isEmpty then true
  else if voice.labels.isEmpty then false
  else filters.all (fun f =>
    match labelValue voice.labels f.key with
    | none => false
    | some val => lowerStr (trimStr val) == f.value)

/-- `filterVoicesByLabels` (voices_query.go). -/
def filterVoicesByLabels (voices : List Voice) (filters : List LabelFilter) :
    List Voice :=
  if filters.isEmpty then voices
  else voices.filter (fun v => matchesAllLabels v filters)

def noLabelMatchMsg : String := "no voices matched label filters"

/-- The label-filtering step of the `voices` command's RunE (cmd/voices.go):
apply the filters, and treat an empty result as a hard error. -/
def labelFilterStep (voices : List Voice) (filters : List LabelFilter) :
    Except String (List Voice) :=
  if 0 < filters.length then
    let vs := filterVoicesByLabels voices filters
    if vs.length = 0 then .error noLabelMatchMsg else .ok vs
  else .ok voices

/-- `tokenizeQuery` (voices_query.go): lowercase, replace non-alphanumerics by
spaces, split into fields, drop tokens shorter than 2 bytes. -/
def tokenizeQuery (query : String) : List String :=
  let replaced := (lowerStr query).toList.map (fun r => if r.isAlphanum then r else ' ')
  let raw := (replaced.splitOnP (fun c => c = ' ')).map String.mk
  raw.filter (fun token => decide (2 ≤ strByteLen token))

/-- `flattenLabels` (voices_query.go). -/
def flattenLabels (labels : List (String × String)) : String :=
  labels.foldl (fun acc p =>
    if p.1 = "" ∧ p.2 = "" then acc
    else acc ++ p.1 ++ ":" ++ p.2 ++ " ") ""

/-- `scoreVoice` (voices_query.go). -/
def scoreVoice (voice : Voice) (query : String) (tokens : List String) : Nat :=
  let name := lowerStr voice.name
  let desc := lowerStr voice.description
  let labels := lowerStr (flattenLabels voice.labels)
  let category := lowerStr voice.category
  let queryLower := lowerStr query
  let base : Nat :=
    if queryLower ≠ "" then
      if strContains name queryLower then 10
      else if strContains desc queryLower then 7
      else if strContains labels queryLower then 5
      else 0
    else 0
  tokens.foldl (fun score token =>
    score
    + (if strContains name token then 6 else 0)
    + (if desc ≠ "" ∧ strContains desc token then 4 else 0)
    + (if labels ≠ "" ∧ strContains labels token then 3 else 0)
    + (if category ≠ "" ∧ strContains category token then 1 else 0)) base

structure ScoredVoice where
  voice : Voice
  score : Nat
deriving Repr, DecidableEq

/-- The `less` comparator handed to `sort.SliceStable` in `rankVoicesByQuery`:
higher score first, ties by case-insensitive name ascending. -/
def svLess (a b : ScoredVoice) : Bool :=
  if a.score = b.score then decide (lowerStr a.voice.name < lowerStr b.voice.name)
  else decide (b.score < a.score)

/-- Stable insertion used to embed `sort.SliceStable`: an element is placed
before the first entry not strictly below it, so entries comparing equal keep
their original relative order (the unique stable order for this comparator). -/
def svInsert (a : ScoredVoice) : List ScoredVoice → List ScoredVoice
  | [] => [a]
  | b :: rest => if svLess b a then b :: svInsert a rest else a :: b :: rest

def svSort : List ScoredVoice → List ScoredVoice
  | [] => []
  | a :: rest => svInsert a (svSort rest)

/-- `rankVoicesByQuery` (voices_query.go). -/
def rankVoicesByQuery (voices : List Voice) (query : String) : List Voice :=
  let q := trimStr query
  if q = "" then voices
  else
    let tokens := tokenizeQuery q
    let scored := voices.filterMap (fun v =>
      let s := scoreVoice v q tokens
      if 0 < s then some ⟨v, s⟩ else none)
    (svSort scored).map (·.voice)

/-! ## Voice Metadata Cache (cmd/voices_cache.go)

`hydrateVoices` runs its detail fetches on a bounded worker pool; each input
index is handled independently and written to its own slot of the results
slice, so the returned list is deterministic and is embedded as a sequential
fold.  Cache lookups are made against the cache as of the start of the call
(fresh entries are never overwritten during a run).  Timestamps and durations
are `Int` nanoseconds, as Go's `time.Time`/`time.Duration` arithmetic. -/

structure CachedVoice where
  voice : Voice
  updatedAt : Int
deriving Repr, DecidableEq

structure VoiceCache where
  version : Int
  voices : List (String × CachedVoice)
deriving Repr, DecidableEq

/-- `voiceCacheTTL = 24 * time.Hour` in nanoseconds. -/
def voiceCacheTTL : Int := 86400000000000

/-- `mergeVoice` (voices_cache.go): detail fields win when non-empty. -/
def mergeVoice (base details : Voice) : Voice :=
  { voiceID := if details.voiceID ≠ "" then details.voiceID else base.voiceID
    name := if details.name ≠ "" then details.name else base.name
    category := if details.category ≠ "" then details.category else base.category
    description := if details.description ≠ "" then details.description else base.description
    labels := if 0 < details.labels.length then details.labels else base.labels
    previewURL := if details.previewURL ≠ "" then details.previewURL else base.previewURL }

/-- Result of hydration: the hydrated list, the metadata-carrying count, the
number of `GetVoice` network fetches performed, and the entries written back
to the shared cache. -/
structure HydrateOut where
  results : List Voice
  metaCount : Nat
  fetches : Nat
  updates : List (String × CachedVoice)
deriving Repr, DecidableEq

/-- The per-voice body of `hydrateVoices`'s loop, folded over the input list.
`getVoice` is the provider's `GetVoice` detail call. -/
def hydrateList (getVoice : String → Except String Voice) (now ttl : Int)
    (cache : List (String × CachedVoice)) : List Voice → HydrateOut
  | [] => ⟨[], 0, 0, []⟩
  | v :: rest =>
    let o := hydrateList getVoice now ttl cache rest
    if v.voiceID = "" then
      ⟨v :: o.results, o.metaCount, o.fetches, o.updates⟩
    else
      match cache.lookup v.voiceID with
      | some cached =>
        if now - cached.updatedAt < ttl then
          ⟨mergeVoice v cached.voice :: o.results, o.metaCount + 1, o.fetches, o.updates⟩
        else
          match getVoice v.voiceID with
          | .error _ => ⟨v :: o.results, o.metaCount, o.fetches + 1, o.updates⟩
          | .ok details =>
            let merged := mergeVoice v details
            ⟨merged :: o.results, o.metaCount + 1, o.fetches + 1,
              (v.voiceID, ⟨merged, now⟩) :: o.updates⟩
      | none =>
        match getVoice v.voiceID with
        | .error _ => ⟨v :: o.results, o.metaCount, o.fetches + 1, o.updates⟩
        | .ok details =>
          let merged := mergeVoice v details
          ⟨merged :: o.results, o.metaCount + 1, o.fetches + 1,
            (v.voiceID, ⟨merged, now⟩) :: o.updates⟩

/-- `hydrateVoices` (voices_cache.go): non-positive TTLs fall back to the
24-hour default before the per-voice loop runs. -/
def hydrateVoices (getVoice : String → Except String Voice) (now : Int)
    (voices : List Voice) (cache : VoiceCache) (ttl : Int) : HydrateOut :=
  let t := if ttl ≤ 0 then voiceCacheTTL else ttl
  hydrateList getVoice now t cache.voices voices

/-! ## MiniMax event-stream decoder (internal/minimax/client.go)

`readMiniMaxStream` reads the SSE-shaped response body line by line, buffers
`data:` payload lines, and hands complete events to
`handleMiniMaxStreamPayload`, which JSON-decodes them, hex-decodes the audio
fragments onto the pipe, and recognises the `status == 2` sentinel.  The JSON
layer models `encoding/json` on the payload subset the endpoint emits
(objects, arrays, strings with standard escapes, integers, booleans, null;
later duplicate keys win; unknown fields ignored; absent fields zero-valued).
Recursive parsers take explicit fuel; one unit of fuel is spent per character
consumed, so fuel `length + 1` is always sufficient. -/

def lbraceChar : Char := Char.ofNat 123
def rbraceChar : Char := Char.ofNat 125

inductive Json where
  | jnull : Json
  | jbool (b : Bool) : Json
  | jint (n : Int) : Json
  | jstr (s : String) : Json
  | jarr (elements : List Json) : Json
  | jobj (fields : List (String × Json)) : Json
deriving Repr

/-- JSON insignificant whitespace. -/
def jsonWs (c : Char) : Bool :=
  c = ' ' || c = '\t' || c = '\n' || c = '\r'

def skipWs (l : List Char) : List Char :=
  l.dropWhile jsonWs

def hexDigitVal (c : Char) : Option Nat :=
  if '0' ≤ c ∧ c ≤ '9' then some (c.toNat - '0'.toNat)
  else if 'a' ≤ c ∧ c ≤ 'f' then some (c.toNat - 'a'.toNat + 10)
  else if 'A' ≤ c ∧ c ≤ 'F' then some (c.toNat - 'A'.toNat + 10)
  else none

/-- `hex.DecodeString`: pairs of hex digits to bytes; invalid digits and odd
length are errors. -/
def hexDecodeList : List Char → Except String (List Nat)
  | [] => .ok []
  | [_] => .error "encoding/hex: odd length hex string"
  | hi :: lo :: rest =>
    match hexDigitVal hi, hexDigitVal lo with
    | some h, some l =>
      match hexDecodeList rest with
      | .ok bs => .ok ((h * 16 + l) :: bs)
      | .error e => .error e
    | _, _ => .error "encoding/hex: invalid byte"

def hexDecode (s : String) : Except String (List Nat) :=
  hexDecodeList s.toList

/-- Parse a JSON string body (after the opening quote), handling escapes. -/
def parseJsonStr (fuel : Nat) (l : List Char) (acc : List Char) :
    Option (String × List Char) :=
  match fuel, l with
  | 0, _ => none
  | _, [] => none
  | fuel + 1, c :: rest =>
    if c = '"' then some (String.mk acc.reverse, rest)
    else if c = '\\' then
      match rest with
      | [] => none
      | e :: rest2 =>
        if e = '"' then parseJsonStr fuel rest2 ('"' :: acc)
        else if e = '\\' then parseJsonStr fuel rest2 ('\\' :: acc)
        else if e = '/' then parseJsonStr fuel rest2 ('/' :: acc)
        else if e = 'b' then parseJsonStr fuel rest2 ('\x08' :: acc)
        else if e = 'f' then parseJsonStr fuel rest2 ('\x0c' :: acc)
        else if e = 'n' then parseJsonStr fuel rest2 ('\n' :: acc)
        else if e = 'r' then parseJsonStr fuel rest2 ('\r' :: acc)
        else if e = 't' then parseJsonStr fuel rest2 ('\t' :: acc)
        else if e = 'u' then
          match rest2 with
          | a :: b :: c1 :: d :: rest3 =>
            match hexDigitVal a, hexDigitVal b, hexDigitVal c1, hexDigitVal d with
            | some x, some y, some z, some w =>
              parseJsonStr fuel rest3
                (Char.ofNat (((x * 16 + y) * 16 + z) * 16 + w) :: acc)
            | _, _, _, _ => none
          | _ => none
        else none
    else parseJsonStr fuel rest (c :: acc)

/-- Parse a JSON integer (optional minus, digits; fractions/exponents are not
produced by this endpoint and are rejected). -/
def parseJsonInt (l : List Char) : Option (Int × List Char) :=
  let (neg, l1) : Bool × List Char :=
    match l with
    | '-' :: rest => (true, rest)
    | _ => (false, l)
  let digits := l1.takeWhile (fun c => '0' ≤ c && c ≤ '9')
  let rest := l1.dropWhile (fun c => '0' ≤ c && c ≤ '9')
  if digits.isEmpty then none
  else
    match rest with
    | c :: _ =>
      if c = '.' ∨ c = 'e' ∨ c = 'E' then none
      else
        let n : Nat := digits.foldl (fun acc c => acc * 10 + (c.toNat - '0'.toNat)) 0
        some (if neg then -(n : Int) else (n : Int), rest)
    | [] =>
      let n : Nat := digits.foldl (fun acc c => acc * 10 + (c.toNat - '0'.toNat)) 0
      some (if neg then -(n : Int) else (n : Int), rest)

mutual

def parseJsonVal (fuel : Nat) (l : List Char) : Option (Json × List Char) :=
  match fuel with
  | 0 => none
  | fuel + 1 =>
    match skipWs l with
    | [] => none
    | c :: rest =>
      if c = 'n' then
        match rest with
        | 'u' :: 'l' :: 'l' :: r => some (.jnull, r)
        | _ => none
      else if c = 't' then
        match rest with
        | 'r' :: 'u' :: 'e' :: r => some (.jbool true, r)
        | _ => none
      else if c = 'f' then
        match rest with
        | 'a' :: 'l' :: 's' :: 'e' :: r => some (.jbool false, r)
        | _ => none
      else if c = '"' then
        match parseJsonStr fuel rest [] with
        | some (s, r) => some (.jstr s, r)
        | none => none
      else if c = '[' then
        match skipWs rest with
        | ']' :: r => some (.jarr [], r)
        | r => match parseJsonElems fuel r with
          | some (es, r2) => some (.jarr es, r2)
          | none => none
      else if c = lbraceChar then
        match skipWs rest with
        | d :: r =>
          if d = rbraceChar then some (.jobj [], r)
          else
            match parseJsonMembers fuel (d :: r) with
            | some (fs, r2) => some (.jobj fs, r2)
            | none => none
        | [] => none
      else
        match parseJsonInt (c :: rest) with
        | some (n, r) => some (.jint n, r)
        | none => none

/-- One or more comma-separated array elements, then `]`. -/
def parseJsonElems (fuel : Nat) (l : List Char) : Option (List Json × List Char) :=
  match fuel with
  | 0 => none
  | fuel + 1 =>
    match parseJsonVal fuel l with
    | none => none
    | some (v, r) =>
      match skipWs r with
      | ',' :: r2 =>
        match parseJsonElems fuel r2 with
        | some (vs, r3) => some (v :: vs, r3)
        | none => none
      | ']' :: r2 => some ([v], r2)
      | _ => none

/-- One or more comma-separated object members, then the closing brace. -/
def parseJsonMembers (fuel : Nat) (l : List Char) :
    Option (List (String × Json) × List Char) :=
  match fuel with
  | 0 => none
  | fuel + 1 =>
    match skipWs l with
    | '"' :: r =>
      match parseJsonStr fuel r [] with
      | none => none
      | some (k, r2) =>
        match skipWs r2 with
        | ':' :: r3 =>
          match parseJsonVal fuel r3 with
          | none => none
          | some (v, r4) =>
            match skipWs r4 with
            | ',' :: r5 =>
              match parseJsonMembers fuel r5 with
              | some (fs, r6) => some ((k, v) :: fs, r6)
              | none => none
            | d :: r5 =>
              if d = rbraceChar then some ([(k, v)], r5) else none
            | [] => none
        | _ => none
    | _ => none

end

/-- Top-level `json.Unmarshal` parse: the document plus only trailing
whitespace. -/
def parseJsonDoc (s : String) : Option Json :=
  match parseJsonVal (s.toList.length + 1) s.toList with
  | some (v, r) => if (skipWs r).isEmpty then some v else none
  | none => none

structure T2aStreamData where
  audio : String
  status : Int
deriving Repr, DecidableEq

structure BaseResp where
  statusCode : Int
  statusMsg : String
deriving Repr, DecidableEq

structure T2aStreamResponse where
  data : Option T2aStreamData
  baseResp : Option BaseResp
deriving Repr, DecidableEq

/-- Last-wins object field lookup, as `encoding/json` overwrites on duplicate
keys. -/
def jsonField (fields : List (String × Json)) (key : String) : Option Json :=
  (fields.reverse.find? (fun p => p.1 == key)).map (·.2)

def decodeJsonString (j : Json) : Except String String :=
  match j with
  | .jstr s => .ok s
  | .jnull => .ok ""
  | _ => .error "json: cannot unmarshal value into string field"

def decodeJsonInt (j : Json) : Except String Int :=
  match j with
  | .jint n => .ok n
  | .jnull => .ok 0
  | _ => .error "json: cannot unmarshal value into int field"

def decodeOptField (fields : List (String × Json)) (key : String)
    (dec : Json → Except String α) : Except String (Option α) :=
  match jsonField fields key with
  | none => .ok none
  | some .jnull => .ok none
  | some j => (dec j).map some

def decodeField (fields : List (String × Json)) (key : String) (default : α)
    (dec : Json → Except String α) : Except String α :=
  match jsonField fields key with
  | none => .ok default
  | some j => dec j

/-- Unmarshal a `t2aStreamData` value. -/
def decodeT2aData (j : Json) : Except String T2aStreamData :=
  match j with
  | .jobj fields => do
    let audio ← decodeField fields "audio" "" decodeJsonString
    let status ← decodeField fields "status" 0 decodeJsonInt
    .ok ⟨audio, status⟩
  | _ => .error "json: cannot unmarshal value into t2aStreamData"

/-- Unmarshal a `baseResp` value. -/
def decodeBaseResp (j : Json) : Except String BaseResp :=
  match j with
  | .jobj fields => do
    let code ← decodeField fields "status_code" 0 decodeJsonInt
    let msg ← decodeField fields "status_msg" "" decodeJsonString
    .ok ⟨code, msg⟩
  | _ => .error "json: cannot unmarshal value into baseResp"

/-- Unmarshal a `t2aStreamResponse` object. -/
def decodeT2aResp (j : Json) : Except String T2aStreamResponse :=
  match j with
  | .jobj fields => do
    let d ← decodeOptField fields "data" decodeT2aData
    let b ← decodeOptField fields "base_resp" decodeBaseResp
    .ok ⟨d, b⟩
  | _ => .error "json: cannot unmarshal value into t2aStreamResponse"

/-- Unmarshal `[]t2aStreamResponse`. -/
def decodeT2aList (j : Json) : Except String (List T2aStreamResponse) :=
  match j with
  | .jarr elements => elements.mapM decodeT2aResp
  | _ => .error "json: cannot unmarshal value into t2aStreamResponse slice"

/-- `(b *baseResp).err()` (client.go). -/
def baseRespErr (b : Option BaseResp) : Option String :=
  match b with
  | none => none
  | some r =>
    if r.statusCode = 0 then none
    else
      let msg := trimStr r.statusMsg
      let msg := if msg = "" then "unknown error" else msg
      some ("minimax error: " ++ msg ++ " (code=" ++ toString r.statusCode ++ ")")

/-- Outcome of handling one event payload: the bytes written to the pipe in
order, and whether the handler reported `done` or an error. -/
inductive PayloadStep where
  | next (chunks : List Nat) : PayloadStep
  | halt (chunks : List Nat) : PayloadStep
  | fail (chunks : List Nat) (e : String) : PayloadStep
deriving Repr, DecidableEq

/-- The item loop of `handleMiniMaxStreamPayload`: provider error objects
abort, non-empty audio fragments are hex-decoded and written immediately, and
`status == 2` terminates without touching later items. -/
def processStreamItems (acc : List Nat) : List T2aStreamResponse → PayloadStep
  | [] => .next acc
  | item :: rest =>
    match baseRespErr item.baseResp with
    | some e => .fail acc e
    | none =>
      match item.data with
      | some d =>
        if d.audio ≠ "" then
          match hexDecode d.audio with
          | .error e => .fail acc ("decode audio chunk: " ++ e)
          | .ok chunk =>
            let acc2 := if 0 < chunk.length then acc ++ chunk else acc
            if d.status = 2 then .halt acc2 else processStreamItems acc2 rest
        else
          if d.status = 2 then .halt acc else processStreamItems acc rest
      | none => processStreamItems acc rest

/-- `handleMiniMaxStreamPayload` (client.go). -/
def handleMiniMaxStreamPayload (payload : String) : PayloadStep :=
  let p := trimStr payload
  if p = "" then .next []
  else
    let parsed : Except String (List T2aStreamResponse) :=
      if strHasPrefix p "[" then
        match parseJsonDoc p with
        | none => .error "json: invalid payload"
        | some j => decodeT2aList j
      else
        match parseJsonDoc p with
        | none => .error "json: invalid payload"
        | some j => (decodeT2aResp j).map (fun item => [item])
    match parsed with
    | .error e => .fail [] e
    | .ok items => processStreamItems [] items

/-- `bufio.Reader.ReadString('\n')`: the line including its newline when one
is found; otherwise the remainder with `io.EOF` (`found = false`). -/
structure LineRead where
  line : List Char
  rest : List Char
  found : Bool

def readLine : List Char → LineRead
  | [] => ⟨[], [], false⟩
  | c :: cs =>
    if c = '\n' then ⟨[c], cs, true⟩
    else
      let r := readLine cs
      ⟨c :: r.line, r.rest, r.found⟩

/-- `strings.TrimRight(line, "\r\n")`. -/
def trimRightRN (l : List Char) : List Char :=
  (l.reverse.dropWhile (fun c => c = '\r' || c = '\n')).reverse

/-- `strings.TrimSpace` on a rune list. -/
def trimSpaceChars (l : List Char) : List Char :=
  trimCharsLeft ((trimCharsLeft l.reverse).reverse)

/-- One line of `readMiniMaxStream`'s loop body: either an early return
(blank-line flush that errors or sees the sentinel) or the updated
`dataLines` buffer and written bytes. -/
inductive LineStep where
  | halt (written : List Nat) (err : Option String) : LineStep
  | next (dataLines : List (List Char)) (written : List Nat) : LineStep

def mmJoin (dataLines : List (List Char)) : String :=
  String.mk (List.intercalate ['\n'] dataLines)

def mmProcessLine (line : List Char) (dataLines : List (List Char))
    (acc : List Nat) : LineStep :=
  if line.isEmpty then
    if dataLines.isEmpty then .next dataLines acc
    else
      match handleMiniMaxStreamPayload (mmJoin dataLines) with
      | .fail chunks e => .halt (acc ++ chunks) (some e)
      | .halt chunks => .halt (acc ++ chunks) none
      | .next chunks => .next [] (acc ++ chunks)
  else if "data:".toList.isPrefixOf line then
    .next (dataLines ++ [trimSpaceChars (line.drop 5)]) acc
  else if [':'].isPrefixOf line || "event:".toList.isPrefixOf line
      || "id:".toList.isPrefixOf line || "retry:".toList.isPrefixOf line then
    .next dataLines acc
  else
    let t := trimSpaceChars line
    if [lbraceChar].isPrefixOf t || ['['].isPrefixOf t then
      match handleMiniMaxStreamPayload (String.mk t) with
      | .fail chunks e => .halt (acc ++ chunks) (some e)
      | .halt chunks => .halt (acc ++ chunks) none
      | .next chunks => .next dataLines (acc ++ chunks)
    else .next dataLines acc

/-- The flush of still-buffered `data:` lines after the read loop ends. -/
def mmFlush (dataLines : List (List Char)) (acc : List Nat) :
    List Nat × Option String :=
  if dataLines.isEmpty then (acc, none)
  else
    match handleMiniMaxStreamPayload (mmJoin dataLines) with
    | .fail chunks e => (acc ++ chunks, some e)
    | .halt chunks => (acc ++ chunks, none)
    | .next chunks => (acc ++ chunks, none)

/-- The read loop of `readMiniMaxStream`.  Fuel is one unit per line read;
every line consumes at least one character, so `input.length + 1` units are
always enough and the fuel-exhausted branch is unreachable from
`readMiniMaxStream`. -/
def mmRun (fuel : Nat) (input : List Char) (dataLines : List (List Char))
    (acc : List Nat) : List Nat × Option String :=
  match fuel with
  | 0 => (acc, none)
  | fuel + 1 =>
    match input with
    | [] => mmFlush dataLines acc
    | _ :: _ =>
      let lr := readLine input
      let line := trimRightRN lr.line
      match mmProcessLine line dataLines acc with
      | .halt w e => (w, e)
      | .next dl a =>
        if lr.found then mmRun fuel lr.rest dl a
        else mmFlush dl a

/-- `readMiniMaxStream` (client.go): returns the bytes written to the pipe and
the terminal error (`none` for clean termination). -/
def readMiniMaxStream (body : String) : List Nat × Option String :=
  mmRun (body.toList.length + 1) body.toList [] []

/-! ## Claims about the tee pipeline -/

/-- C1 (counterexample): with `play = false` and no output path the streaming
pipeline does issue the synthesize network call (one `StreamTTS` call) before
returning `NothingToDo`; and if that network call fails, the transport error
is returned instead of `NothingToDo`.  So the claim's "before any network
call is attempted" is false. -/
theorem nothingToDo_after_network_counterexample :
    (streamAndPlay (.ok ⟨[72, 105], none⟩) "" false (fun _ => none)).err
        = some nothingToDoMsg ∧
    (streamAndPlay (.ok ⟨[72, 105], none⟩) "" false (fun _ => none)).netCalls = 1 ∧
    (streamAndPlay (.error "connection refused") "" false (fun _ => none)).err
        = some "connection refused" := by
  decide

/-- C1 (amended): with `play = false` and an empty output path, both the
streaming and the non-streaming ElevenLabs pipelines first issue their
synthesize network call; when it fails that transport error is returned, and
only when it succeeds does the pipeline fail with `NothingToDo`. -/
theorem nothingToDo_after_network_call (r : Except String StreamSrc)
    (rc : Except String (List Nat)) (f g : List Nat → Option String) :
    (streamAndPlay r "" false f).netCalls = 1 ∧
    (streamAndPlay r "" false f).err =
      (match r with | .error e => some e | .ok _ => some nothingToDoMsg) ∧
    (convertAndPlay rc "" false g).netCalls = 1 ∧
    (convertAndPlay rc "" false g).err =
      (match rc with | .error e => some e | .ok _ => some nothingToDoMsg) := by
  cases r <;> cases rc <;> simp [streamAndPlay, convertAndPlay]

/-- C4: in the streaming tee pipeline with playback enabled (both providers),
the byte count reported to the caller is always the copy side's count — the
number of bytes delivered by the source — even when playback fails; and when
both the source copy and the playback return errors, the copy's error is the
one returned. -/
theorem stream_tee_count_and_error_priority (src : StreamSrc) (path : String)
    (f : List Nat → Option String) :
    ((streamAndPlay (.ok src) path true f).count = src.bytes.length ∧
      (∀ e ep, src.readErr = some e → f src.bytes = some ep →
        (streamAndPlay (.ok src) path true f).err = some e)) ∧
    ((streamAndPlayMiniMax (.ok src) path true f).count = src.bytes.length ∧
      (∀ e ep, src.readErr = some e → f src.bytes = some ep →
        (streamAndPlayMiniMax (.ok src) path true f).err = some e)) := by
  refine ⟨⟨?_, ?_⟩, ?_, ?_⟩
  · simp [streamAndPlay]
  · intro e ep he _
    simp [streamAndPlay, he]
  · simp [streamAndPlayMiniMax]
  · intro e ep he _
    simp [streamAndPlayMiniMax, he]

/-- Witness for C4: a source of three bytes whose copy fails with
`"copy boom"` while playback fails with `"play boom"`: the pipeline reports
count 3 and the copy's error. -/
theorem stream_tee_count_and_error_priority_witness :
    (streamAndPlay (.ok ⟨[1, 2, 3], some "copy boom"⟩) "" true
        (fun _ => some "play boom")).count = 3 ∧
    (streamAndPlay (.ok ⟨[1, 2, 3], some "copy boom"⟩) "" true
        (fun _ => some "play boom")).err = some "copy boom" :=
  ⟨(stream_tee_count_and_error_priority ⟨[1, 2, 3], some "copy boom"⟩ ""
      (fun _ => some "play boom")).1.1,
    (stream_tee_count_and_error_priority ⟨[1, 2, 3], some "copy boom"⟩ ""
      (fun _ => some "play boom")).1.2 "copy boom" "play boom" rfl rfl⟩

/-! ## Claims about voice resolution -/

/-- C2 (counterexample): the MiniMax resolver does not fail with
`VoiceNotFound` when nothing matches: resolving `"zzz"` against a provider
list containing only the voice `id1`/`Alpha` returns `"zzz"` itself — an id
that is not in the provider's list — with no error. -/
theorem mm_no_match_passthrough_counterexample :
    (resolveMiniMaxVoice (.ok [⟨"id1", "Alpha", "system", ""⟩]) "zzz" false).result
        = .ok "zzz" ∧
    "zzz" ≠ "id1" := by
  decide

/-- C2 (amended): for trimmed inputs that are non-empty, not `"?"`, resolved
without the literal-ID flag and not short-circuited by the looks-like-an-id
heuristic: the ElevenLabs resolver fails with `VoiceNotFound` naming the
input when neither an exact nor a substring case-insensitive name match
exists, and whenever it returns an id it is the id of a voice in the
provider's list; the MiniMax resolver instead falls back to returning the
trimmed input unchanged when nothing matches. -/
theorem resolve_no_match_behaviour (voices : List Voice)
    (mmvoices : List MiniMaxVoice) (input : String)
    (ht : trimStr input ≠ "") (hq : trimStr input ≠ "?")
    (hlid : looksLikeVoiceID (trimStr input) = false) :
    (voices.find? (nameExact (trimStr input)) = none →
      voices.find? (nameSub (trimStr input)) = none →
      (resolveVoice (.ok voices) input false).result =
        .error (voiceNotFoundMsg (trimStr input))) ∧
    (∀ id, (resolveVoice (.ok voices) input false).result = .ok id →
      id ∈ voices.map Voice.voiceID) ∧
    (mmvoices.find? (mmExact (trimStr input)) = none →
      mmvoices.find? (mmSub (trimStr input)) = none →
      (resolveMiniMaxVoice (.ok mmvoices) input false).result =
        .ok (trimStr input)) := by
  refine ⟨?_, ?_, ?_⟩
  · intro hex hsub
    simp [resolveVoice, ht, hq, hlid, hex, hsub]
  · intro id hid
    rw [resolveVoice.eq_def] at hid
    simp only [ht, hq, hlid, if_neg, if_false, Bool.false_eq_true] at hid
    rcases hfe : voices.find? (nameExact (trimStr input)) with _ | v
    · rcases hfs : voices.find? (nameSub (trimStr input)) with _ | v
      · simp [hfe, hfs] at hid
      · simp [hfe, hfs] at hid
        subst hid
        exact List.mem_map_of_mem _ (List.mem_of_find?_eq_some hfs)
    · simp [hfe] at hid
      subst hid
      exact List.mem_map_of_mem _ (List.mem_of_find?_eq_some hfe)
  · intro hex hsub
    simp [resolveMiniMaxVoice, ht, hq, hex, hsub]

/-- Witness for C2: the input `"nothing-match"` against the single ElevenLabs
voice `Near` yields the `VoiceNotFound` error, and resolving `"zzz"` against
the MiniMax list passes the input through. -/
theorem resolve_no_match_behaviour_witness :
    (resolveVoice (.ok [⟨"id1", "Near", "premade", "", [], ""⟩])
        "nothing-match" false).result
      = .error (voiceNotFoundMsg "nothing-match") ∧
    (resolveMiniMaxVoice (.ok [⟨"id1", "Alpha", "system", ""⟩])
        "zz-none" false).result = .ok "zz-none" :=
  ⟨(resolve_no_match_behaviour [⟨"id1", "Near", "premade", "", [], ""⟩]
      [⟨"id1", "Alpha", "system", ""⟩] "nothing-match"
      (by decide) (by decide) (by decide)).1 (by decide) (by decide),
    (resolve_no_match_behaviour [⟨"id1", "Near", "premade", "", [], ""⟩]
      [⟨"id1", "Alpha", "system", ""⟩] "zz-none"
      (by decide) (by decide) (by decide)).2.2 (by decide) (by decide)⟩

/-- C3 (counterexample): an input that equals an existing voice's name
case-insensitively but is at least 15 bytes long, has no space and contains a
digit is passed through unchanged by the looks-like-an-id short-circuit: the
voice `idX` named `VoiceNumber12345` is not selected, and no notice is
printed. -/
theorem exact_name_shortcircuit_counterexample :
    nameExact "VoiceNumber12345" ⟨"idX", "VoiceNumber12345", "premade", "", [], ""⟩
        = true ∧
    (resolveVoice (.ok [⟨"idX", "VoiceNumber12345", "premade", "", [], ""⟩])
        "VoiceNumber12345" false).result = .ok "VoiceNumber12345" ∧
    (resolveVoice (.ok [⟨"idX", "VoiceNumber12345", "premade", "", [], ""⟩])
        "VoiceNumber12345" false).notices = [] ∧
    "VoiceNumber12345" ≠ "idX" := by
  decide

/-- C3 (amended): for every input whose trimmed form is non-empty, not `"?"`,
resolved without the literal-ID flag, and not captured by the id
short-circuit (at least 15 bytes, no space, containing a digit): if the
trimmed input equals some voice's name case-insensitively, resolution
returns the first such voice's id and prints the "using voice" notice to the
error stream. -/
theorem exact_name_resolves_first_match (voices : List Voice) (input : String)
    (v : Voice) (ht : trimStr input ≠ "") (hq : trimStr input ≠ "?")
    (hshort : (looksLikeVoiceID (trimStr input) && containsDigit (trimStr input))
        = false)
    (hfind : voices.find? (nameExact (trimStr input)) = some v) :
    (resolveVoice (.ok voices) input false).result = .ok v.voiceID ∧
    (resolveVoice (.ok voices) input false).notices =
      [usingVoiceNotice v.name v.voiceID] := by
  by_cases hl : looksLikeVoiceID (trimStr input) = true
  · have hd : containsDigit (trimStr input) = false := by
      cases hcd : containsDigit (trimStr input)
      · rfl
      · rw [hl, hcd] at hshort
        cases hshort
    constructor <;> simp [resolveVoice, ht, hq, hl, hd, hfind]
  · have hl' : looksLikeVoiceID (trimStr input) = false := by
      cases hcd : looksLikeVoiceID (trimStr input)
      · rfl
      · exact absurd hcd hl
    constructor <;> simp [resolveVoice, ht, hq, hl', hfind]

/-- Witness for C3: resolving `"roger"` against `[Sarah, Roger]` returns
`id-roger` and prints the notice. -/
theorem exact_name_resolves_first_match_witness :
    (resolveVoice (.ok [⟨"id-sarah", "Sarah", "premade", "", [], ""⟩,
        ⟨"id-roger", "Roger", "premade", "", [], ""⟩]) "roger" false).result
      = .ok "id-roger" ∧
    (resolveVoice (.ok [⟨"id-sarah", "Sarah", "premade", "", [], ""⟩,
        ⟨"id-roger", "Roger", "premade", "", [], ""⟩]) "roger" false).notices
      = [usingVoiceNotice "Roger" "id-roger"] :=
  exact_name_resolves_first_match
    [⟨"id-sarah", "Sarah", "premade", "", [], ""⟩,
      ⟨"id-roger", "Roger", "premade", "", [], ""⟩]
    "roger" ⟨"id-roger", "Roger", "premade", "", [], ""⟩
    (by decide) (by decide) (by decide) (by decide)

/-! ## Claim about the MiniMax stream decoder -/

/-- The SSE body of C5's scenario: an event carrying hex `48656c6c6f` with
status 1, then a status-2 sentinel event, each followed by a blank line. -/
def mmScenarioInput : String :=
  "data: \x7b\"data\":\x7b\"audio\":\"48656c6c6f\",\"status\":1\x7d\x7d\n\ndata: \x7b\"data\":\x7b\"status\":2\x7d\x7d\n\n"

/-- C5: feeding the event-stream decoder the two-event SSE body writes
exactly the bytes of `"Hello"` (`48 65 6c 6c 6f`) to the pipe and terminates
cleanly with no error on the status-2 sentinel. -/
theorem minimax_stream_scenario_hello :
    readMiniMaxStream mmScenarioInput = ([72, 101, 108, 108, 111], none) := by
  decide

/-! ## Claim C6: the query score formula -/

/-- The scoring formula exactly as the spec words it: a whole-query substring
bonus (name 10, else description 7, else labels 5) plus, per token, additive
bonuses (name 6, description 4, labels 3, category 1), summed over the
tokens. -/
def specQueryScore (voice : Voice) (query : String) : Nat :=
  let name := lowerStr voice.name
  let desc := lowerStr voice.description
  let labels := lowerStr (flattenLabels voice.labels)
  let category := lowerStr voice.category
  let ql := lowerStr query
  (if strContains name ql then 10
   else if strContains desc ql then 7
   else if strContains labels ql then 5
   else 0)
  + ((tokenizeQuery query).map (fun token =>
      (if strContains name token then 6 else 0)
      + (if strContains desc token then 4 else 0)
      + (if strContains labels token then 3 else 0)
      + (if strContains category token then 1 else 0))).sum

theorem strContains_empty_left (t : String) (h : t ≠ "") :
    strContains "" t = false := by
  obtain ⟨d⟩ := t
  cases d with
  | nil => exact absurd rfl h
  | cons c cs => simp [strContains, listContainsSub, String.toList]

theorem lowerStr_ne_empty (q : String) (h : q ≠ "") : lowerStr q ≠ "" := by
  obtain ⟨d⟩ := q
  cases d with
  | nil => exact absurd rfl h
  | cons c cs =>
    intro hcontra
    have hlen := congrArg (fun s => s.toList.length) hcontra
    simp [lowerStr, String.toList] at hlen

theorem mem_tokenizeQuery_ne_empty (q : String) (t : String)
    (h : t ∈ tokenizeQuery q) : t ≠ "" := by
  intro he
  subst he
  have h2 := (List.mem_filter.mp h).2
  simp only [strByteLen, decide_eq_true_eq] at h2
  exact absurd h2 (by decide)

theorem guarded_token_bonus (s t : String) (h : t ≠ "") (w : Nat) :
    (if s ≠ "" ∧ strContains s t then w else 0)
      = (if strContains s t then w else 0) := by
  by_cases hs : s = ""
  · subst hs
    simp [strContains_empty_left t h]
  · simp [hs]

theorem token_fold_eq_sum (name desc labels category : String)
    (tokens : List String) (hts : ∀ t ∈ tokens, t ≠ "") (b : Nat) :
    tokens.foldl (fun score token =>
      score
      + (if strContains name token then 6 else 0)
      + (if desc ≠ "" ∧ strContains desc token then 4 else 0)
      + (if labels ≠ "" ∧ strContains labels token then 3 else 0)
      + (if category ≠ "" ∧ strContains category token then 1 else 0)) b
    = b + (tokens.map (fun token =>
        (if strContains name token then 6 else 0)
        + (if strContains desc token then 4 else 0)
        + (if strContains labels token then 3 else 0)
        + (if strContains category token then 1 else 0))).sum := by
  induction tokens generalizing b with
  | nil => simp
  | cons t rest ih =>
    have hne : t ≠ "" := hts t (by simp)
    rw [List.foldl_cons, ih (fun x hx => hts x (by simp [hx])),
      List.map_cons, List.sum_cons,
      guarded_token_bonus desc t hne, guarded_token_bonus labels t hne,
      guarded_token_bonus category t hne]
    omega

/-- C6: for every voice and every non-empty query, the score computed by
`scoreVoice` on the query's tokens equals the spec's formula: the
whole-query substring bonus (10/7/5 for name/description/labels) plus the
per-token bonuses (6/4/3/1 for name/description/labels/category) summed over
all tokens. -/
theorem scoreVoice_eq_spec_formula (v : Voice) (q : String) (hq : q ≠ "") :
    scoreVoice v q (tokenizeQuery q) = specQueryScore v q := by
  unfold scoreVoice specQueryScore
  simp only []
  rw [if_pos (lowerStr_ne_empty q hq)]
  exact token_fold_eq_sum _ _ _ _ _ (mem_tokenizeQuery_ne_empty q) _

/-- Witness for C6: the scenario voice `Roger - Casual` scored for the query
`"roger casual"`. -/
theorem scoreVoice_eq_spec_formula_witness :
    ("roger casual" : String) ≠ "" ∧
    scoreVoice ⟨"id2", "Roger - Casual", "premade", "A casual voice", [], ""⟩
        "roger casual" (tokenizeQuery "roger casual")
      = specQueryScore ⟨"id2", "Roger - Casual", "premade", "A casual voice", [], ""⟩
        "roger casual" :=
  ⟨by decide,
    scoreVoice_eq_spec_formula
      ⟨"id2", "Roger - Casual", "premade", "A casual voice", [], ""⟩
      "roger casual" (by decide)⟩

/-! ## Claim C7: label filtering -/

/-- The spec's reading of a matching voice: every filter has some label whose
key equals the filter key case-insensitively and whose value, trimmed and
lowercased, equals the filter value. -/
def specLabelMatch (filters : List LabelFilter) (v : Voice) : Bool :=
  filters.all (fun f => v.labels.any (fun p =>
    lowerStr p.1 == f.key && lowerStr (trimStr p.2) == f.value))

theorem lookup_none_of_keys_ne {β : Type} (key : String)
    (l : List (String × β)) (h : ∀ p ∈ l, p.1 ≠ key) :
    List.lookup key l = none := by
  induction l with
  | nil => rfl
  | cons p rest ih =>
    have hp : p.1 ≠ key := h p (by simp)
    obtain ⟨k, b⟩ := p
    rw [List.lookup]
    have : (key == k) = false := by
      simp only [beq_eq_false_iff_ne]
      exact fun hk => hp hk.symm
    rw [this]
    exact ih (fun x hx => h x (by simp [hx]))

theorem any_false_of_lowered_keys_ne (key value : String)
    (l : List (String × String)) (h : ∀ p ∈ l, lowerStr p.1 ≠ key) :
    (l.any (fun p => lowerStr p.1 == key && lowerStr (trimStr p.2) == value))
      = false := by
  rw [List.any_eq_false]
  intro p hp
  simp only [Bool.and_eq_true, beq_iff_eq, not_and]
  intro hk
  exact absurd hk (h p hp)

/-- Under case-insensitively unique label keys and a lowercase filter key, the
code's `labelValue`-based test agrees with the spec's existential reading. -/
theorem labelValue_matches_any (labels : List (String × String))
    (key value : String) (hkey : lowerStr key = key)
    (hnodup : labels.Pairwise (fun p q => lowerStr p.1 ≠ lowerStr q.1)) :
    (match labelValue labels key with
     | none => false
     | some val => lowerStr (trimStr val) == value)
    = labels.any (fun p => lowerStr p.1 == key && lowerStr (trimStr p.2) == value) := by
  induction labels with
  | nil => rfl
  | cons p rest ih =>
    obtain ⟨k, val⟩ := p
    rw [List.pairwise_cons] at hnodup
    obtain ⟨hhead, hrest⟩ := hnodup
    by_cases hk : k = key
    · subst hk
      have hl : lowerStr k = k := hkey
      have hrestne : ∀ q ∈ rest, lowerStr q.1 ≠ k := by
        intro q hq hcontra
        exact hhead q hq (by rw [hl, hcontra])
      have hlookup : labelValue ((k, val) :: rest) k = some val := by
        simp [labelValue, List.lookup]
      rw [hlookup, List.any_cons,
        any_false_of_lowered_keys_ne k value rest hrestne]
      simp [hl]
    · by_cases hlk : lowerStr k = key
      · have hrestne : ∀ q ∈ rest, lowerStr q.1 ≠ key := by
          intro q hq hcontra
          exact hhead q hq (by rw [hlk, hcontra])
        have hlookrest : List.lookup key rest = none := by
          refine lookup_none_of_keys_ne key rest (fun q hq hcontra => ?_)
          exact hrestne q hq (by rw [hcontra, hkey])
        have hlookup : labelValue ((k, val) :: rest) key = some val := by
          have hne : (key == k) = false := by
            simp only [beq_eq_false_iff_ne]
            exact fun heq => hk heq.symm
          simp [labelValue, List.lookup, hne, hlookrest, List.find?, hlk]
        rw [hlookup, List.any_cons,
          any_false_of_lowered_keys_ne key value rest hrestne]
        simp [hlk]
      · have hne : (key == k) = false := by
          simp only [beq_eq_false_iff_ne]
          exact fun heq => hk heq.symm
        have hfind : (lowerStr k == key) = false := by
          simp only [beq_eq_false_iff_ne]
          exact hlk
        have hstep : labelValue ((k, val) :: rest) key = labelValue rest key := by
          simp only [labelValue, List.lookup, hne, List.find?, hfind]
        rw [hstep, List.any_cons, ih hrest]
        simp [hfind]

theorem all_congr_mem {α : Type} (l : List α) (p q : α → Bool)
    (h : ∀ x ∈ l, p x = q x) : l.all p = l.all q := by
  induction l with
  | nil => rfl
  | cons x rest ih =>
    rw [List.all_cons, List.all_cons, h x (by simp),
      ih (fun y hy => h y (by simp [hy]))]

/-- The code's `matchesAllLabels` agrees with the spec's reading for parsed
(lowercase-key) filters and voices whose label keys are case-insensitively
unique. -/
theorem matchesAllLabels_eq_spec (v : Voice) (filters : List LabelFilter)
    (hf : filters ≠ [])
    (hkeys : ∀ f ∈ filters, lowerStr f.key = f.key)
    (hnodup : v.labels.Pairwise (fun p q => lowerStr p.1 ≠ lowerStr q.1)) :
    matchesAllLabels v filters = specLabelMatch filters v := by
  have hfe : filters.isEmpty = false := by
    cases filters with
    | nil => exact absurd rfl hf
    | cons f fs => rfl
  unfold matchesAllLabels specLabelMatch
  rw [hfe]
  by_cases hl : v.labels.isEmpty
  · have hlnil : v.labels = [] := by
      cases hll : v.labels with
      | nil => rfl
      | cons p ps => rw [hll] at hl; cases hl
    simp only [hl, hlnil]
    cases filters with
    | nil => exact absurd rfl hf
    | cons f fs => simp [List.all_cons, List.any_nil]
  · have hlne : v.labels.isEmpty = false := by
      cases hll : v.labels.isEmpty with
      | false => rfl
      | true => exact absurd hll hl
    rw [hlne]
    simp only [Bool.false_eq_true, if_false]
    refine all_congr_mem filters _ _ (fun f hfmem => ?_)
    exact labelValue_matches_any v.labels f.key f.value (hkeys f hfmem) hnodup

/-- C7 (counterexample): the hard error produced when label filtering leaves
nothing does not name the filters: for the filter `accent=british` the
message is the fixed string `"no voices matched label filters"`, which
mentions neither the key nor the value. -/
theorem label_filter_error_counterexample :
    labelFilterStep [⟨"id1", "Alpha", "premade", "", [], ""⟩]
        [⟨"accent", "british"⟩] = .error "no voices matched label filters" ∧
    strContains "no voices matched label filters" "accent" = false ∧
    strContains "no voices matched label filters" "british" = false := by
  decide

/-- C7 (amended): for every voice list and every non-empty list of parsed
filters (keys already lowercased, as `parseLabelFilters` produces them), and
voices whose label keys are case-insensitively unique, label filtering
returns exactly the subset of voices on which every filter matches some
label (key case-insensitively, value after trimming and lowercasing); an
empty result is a hard error, whose message is the fixed string
`"no voices matched label filters"`. -/
theorem filter_by_labels_subset_and_error (voices : List Voice)
    (filters : List LabelFilter) (hf : filters ≠ [])
    (hkeys : ∀ f ∈ filters, lowerStr f.key = f.key)
    (hnodup : ∀ v ∈ voices, v.labels.Pairwise (fun p q => lowerStr p.1 ≠ lowerStr q.1)) :
    filterVoicesByLabels voices filters = voices.filter (specLabelMatch filters) ∧
    (voices.filter (specLabelMatch filters) = [] →
      labelFilterStep voices filters = .error noLabelMatchMsg) := by
  have hfe : filters.isEmpty = false := by
    cases filters with
    | nil => exact absurd rfl hf
    | cons f fs => rfl
  have hflen : 0 < filters.length := by
    cases filters with
    | nil => exact absurd rfl hf
    | cons f fs => simp
  have heq : filterVoicesByLabels voices filters
      = voices.filter (specLabelMatch filters) := by
    unfold filterVoicesByLabels
    rw [hfe]
    simp only [Bool.false_eq_true, if_false]
    exact List.filter_congr
      (fun v hv => matchesAllLabels_eq_spec v filters hf hkeys (hnodup v hv))
  refine ⟨heq, fun hempty => ?_⟩
  unfold labelFilterStep
  rw [if_pos hflen, heq, hempty]
  rfl

/-- Witness for C7: the filter `accent=british` keeps exactly the voice
carrying the label `Accent=British` (key matched case-insensitively, value
trimmed/lowered), and drops the `accent=american` voice. -/
theorem filter_by_labels_subset_and_error_witness :
    filterVoicesByLabels
        [⟨"idA", "Amber", "premade", "", [("Accent", " British ")], ""⟩,
          ⟨"idB", "Brian", "premade", "", [("accent", "american")], ""⟩]
        [⟨"accent", "british"⟩]
      = [⟨"idA", "Amber", "premade", "", [("Accent", " British ")], ""⟩] :=
  (filter_by_labels_subset_and_error
      [⟨"idA", "Amber", "premade", "", [("Accent", " British ")], ""⟩,
        ⟨"idB", "Brian", "premade", "", [("accent", "american")], ""⟩]
      [⟨"accent", "british"⟩]
      (by decide) (by decide) (by decide)).1.trans (by decide)

/-! ## Claim C8: query ranking order -/

theorem svLess_asymm (a b : ScoredVoice) (h : svLess a b = true) :
    svLess b a = false := by
  unfold svLess at h ⊢
  by_cases hs : a.score = b.score
  · rw [if_pos hs] at h
    rw [if_pos hs.symm]
    have hlt := of_decide_eq_true h
    simpa using not_lt.mpr (le_of_lt hlt)
  · rw [if_neg hs] at h
    rw [if_neg (fun hc => hs hc.symm)]
    have hlt := of_decide_eq_true h
    simpa using not_lt.mpr (le_of_lt hlt)

theorem svLess_neg_trans (a b c : ScoredVoice) (h1 : svLess b a = false)
    (h2 : svLess c b = false) : svLess c a = false := by
  unfold svLess at h1 h2 ⊢
  by_cases hba : b.score = a.score
  · rw [if_pos hba] at h1
    have hna := of_decide_eq_false h1
    by_cases hcb : c.score = b.score
    · rw [if_pos hcb] at h2
      have hnb := of_decide_eq_false h2
      rw [if_pos (hcb.trans hba)]
      exact decide_eq_false (fun hc =>
        hna (lt_of_le_of_lt (not_lt.mp hnb) hc))
    · rw [if_neg hcb] at h2
      have hsc := of_decide_eq_false h2
      have : c.score < a.score := by
        rcases lt_or_ge c.score b.score with hlt | hge
        · omega
        · exact absurd (lt_of_le_of_ne hge (fun hc => hcb hc.symm)) hsc
      rw [if_neg (by omega)]
      exact decide_eq_false (by omega)
  · rw [if_neg hba] at h1
    have hsa := of_decide_eq_false h1
    have hblt : b.score < a.score := by
      rcases lt_or_ge b.score a.score with hlt | hge
      · exact hlt
      · exact absurd (lt_of_le_of_ne hge (fun hc => hba hc.symm)) hsa
    by_cases hcb : c.score = b.score
    · rw [if_neg (by omega)]
      exact decide_eq_false (by omega)
    · rw [if_neg hcb] at h2
      have hsb := of_decide_eq_false h2
      have : c.score < b.score := by
        rcases lt_or_ge c.score b.score with hlt | hge
        · exact hlt
        · exact absurd (lt_of_le_of_ne hge (fun hc => hcb hc.symm)) hsb
      rw [if_neg (by omega)]
      exact decide_eq_false (by omega)

theorem mem_svInsert (a x : ScoredVoice) (l : List ScoredVoice) :
    x ∈ svInsert a l ↔ x = a ∨ x ∈ l := by
  induction l with
  | nil => simp [svInsert]
  | cons b rest ih =>
    unfold svInsert
    by_cases hb : svLess b a = true
    · rw [if_pos hb]
      simp only [List.mem_cons, ih]
      tauto
    · rw [if_neg hb]
      simp only [List.mem_cons]

theorem mem_svSort (x : ScoredVoice) (l : List ScoredVoice) :
    x ∈ svSort l ↔ x ∈ l := by
  induction l with
  | nil => simp [svSort]
  | cons a rest ih =>
    unfold svSort
    rw [mem_svInsert]
    simp [ih]

theorem pairwise_svInsert (a : ScoredVoice) (l : List ScoredVoice)
    (h : l.Pairwise (fun x y => svLess y x = false)) :
    (svInsert a l).Pairwise (fun x y => svLess y x = false) := by
  induction l with
  | nil => simp [svInsert]
  | cons b rest ih =>
    rw [List.pairwise_cons] at h
    obtain ⟨hb, hrest⟩ := h
    unfold svInsert
    by_cases hba : svLess b a = true
    · rw [if_pos hba]
      rw [List.pairwise_cons]
      refine ⟨fun y hy => ?_, ih hrest⟩
      rw [mem_svInsert] at hy
      rcases hy with hya | hyr
      · rw [hya]
        exact svLess_asymm b a hba
      · exact hb y hyr
    · rw [if_neg hba]
      have hba' : svLess b a = false := by
        cases hc : svLess b a with
        | false => rfl
        | true => exact absurd hc hba
      rw [List.pairwise_cons]
      refine ⟨fun y hy => ?_, List.Pairwise.cons hb hrest⟩
      rcases List.mem_cons.mp hy with hyb | hyr
      · subst hyb
        exact hba'
      · exact svLess_neg_trans a b y hba' (hb y hyr)

theorem pairwise_svSort (l : List ScoredVoice) :
    (svSort l).Pairwise (fun x y => svLess y x = false) := by
  induction l with
  | nil => simp [svSort]
  | cons a rest ih => exact pairwise_svInsert a (svSort rest) ih

theorem mem_ranked_scored (voices : List Voice) (q : String)
    (tokens : List String) (x : ScoredVoice)
    (hx : x ∈ voices.filterMap (fun v =>
      let s := scoreVoice v q tokens
      if 0 < s then some ⟨v, s⟩ else none)) :
    x.score = scoreVoice x.voice q tokens ∧ 0 < x.score ∧ x.voice ∈ voices := by
  rw [List.mem_filterMap] at hx
  obtain ⟨v, hv, heq⟩ := hx
  by_cases hs : 0 < scoreVoice v q tokens
  · rw [if_pos hs] at heq
    cases heq
    exact ⟨rfl, hs, hv⟩
  · rw [if_neg hs] at heq
    cases heq

/-- C8 (counterexample): for a query that trims to the empty string the
ranking returns the input unfiltered, including voices whose score is 0, so
"never returns a voice whose score is 0" fails for "every query". -/
theorem rank_empty_query_counterexample :
    rankVoicesByQuery [⟨"id1", "Alpha", "", "", [], ""⟩] "   "
        = [⟨"id1", "Alpha", "", "", [], ""⟩] ∧
    scoreVoice ⟨"id1", "Alpha", "", "", [], ""⟩ (trimStr "   ")
        (tokenizeQuery (trimStr "   ")) = 0 := by
  decide

/-- C8 (amended): for every voice list and every query that is non-empty
after trimming, ranking never returns a voice whose score is 0, and the
output is sorted: strictly descending score, with equal scores broken by
case-insensitive name ascending (non-strictly: voices equal in both score
and lowered name keep their input order, deterministically, as the stable
sort dictates). -/
theorem rank_positive_scores_and_sorted (voices : List Voice) (query : String)
    (hq : trimStr query ≠ "") :
    (∀ v ∈ rankVoicesByQuery voices query,
      0 < scoreVoice v (trimStr query) (tokenizeQuery (trimStr query))) ∧
    (rankVoicesByQuery voices query).Pairwise (fun a b =>
      scoreVoice b (trimStr query) (tokenizeQuery (trimStr query))
          < scoreVoice a (trimStr query) (tokenizeQuery (trimStr query))
        ∨ (scoreVoice a (trimStr query) (tokenizeQuery (trimStr query))
              = scoreVoice b (trimStr query) (tokenizeQuery (trimStr query))
            ∧ lowerStr a.name ≤ lowerStr b.name)) := by
  unfold rankVoicesByQuery
  rw [if_neg hq]
  simp only []
  constructor
  · intro v hv
    rw [List.mem_map] at hv
    obtain ⟨x, hxmem, hxv⟩ := hv
    rw [mem_svSort] at hxmem
    obtain ⟨hsc, hpos, _⟩ := mem_ranked_scored voices (trimStr query)
      (tokenizeQuery (trimStr query)) x hxmem
    rw [← hxv, ← hsc]
    exact hpos
  · rw [List.pairwise_map]
    refine List.Pairwise.imp_of_mem ?_ (pairwise_svSort _)
    intro x y hxmem hymem hless
    rw [mem_svSort] at hxmem hymem
    obtain ⟨hscx, _, _⟩ := mem_ranked_scored voices (trimStr query)
      (tokenizeQuery (trimStr query)) x hxmem
    obtain ⟨hscy, _, _⟩ := mem_ranked_scored voices (trimStr query)
      (tokenizeQuery (trimStr query)) y hymem
    rw [← hscx, ← hscy]
    unfold svLess at hless
    by_cases hs : y.score = x.score
    · rw [if_pos hs] at hless
      exact Or.inr ⟨hs.symm, not_lt.mp (of_decide_eq_false hless)⟩
    · rw [if_neg hs] at hless
      have hxy := of_decide_eq_false hless
      exact Or.inl (lt_of_le_of_ne (not_lt.mp hxy) hs)

/-- Witness for C8: ranking `[Beta, Alpha, Zed]` (names scoring 6, listed out
of order; `Zed` scoring 0) for the query `"alpha beta"` instantiates the
theorem: only positive-score voices are returned, in sorted order. -/
theorem rank_positive_scores_and_sorted_witness :
    (∀ v ∈ rankVoicesByQuery
        [⟨"idB", "Beta", "", "", [], ""⟩, ⟨"idA", "Alpha", "", "", [], ""⟩,
          ⟨"idZ", "Zed", "", "", [], ""⟩] "alpha beta",
      0 < scoreVoice v (trimStr "alpha beta")
        (tokenizeQuery (trimStr "alpha beta"))) ∧
    (rankVoicesByQuery
        [⟨"idB", "Beta", "", "", [], ""⟩, ⟨"idA", "Alpha", "", "", [], ""⟩,
          ⟨"idZ", "Zed", "", "", [], ""⟩] "alpha beta").Pairwise (fun a b =>
      scoreVoice b (trimStr "alpha beta") (tokenizeQuery (trimStr "alpha beta"))
          < scoreVoice a (trimStr "alpha beta") (tokenizeQuery (trimStr "alpha beta"))
        ∨ (scoreVoice a (trimStr "alpha beta") (tokenizeQuery (trimStr "alpha beta"))
              = scoreVoice b (trimStr "alpha beta") (tokenizeQuery (trimStr "alpha beta"))
            ∧ lowerStr a.name ≤ lowerStr b.name)) :=
  rank_positive_scores_and_sorted
    [⟨"idB", "Beta", "", "", [], ""⟩, ⟨"idA", "Alpha", "", "", [], ""⟩,
      ⟨"idZ", "Zed", "", "", [], ""⟩] "alpha beta" (by decide)

/-! ## Claims C9 and C10: cache hydration -/

theorem hydrateList_length (g : String → Except String Voice) (now t : Int)
    (cache : List (String × CachedVoice)) (voices : List Voice) :
    (hydrateList g now t cache voices).results.length = voices.length := by
  induction voices with
  | nil => rfl
  | cons v rest ih =>
    unfold hydrateList
    by_cases hid : v.voiceID = ""
    · simp only [hid, if_pos]
      simpa using ih
    · rw [if_neg hid]
      rcases hc : List.lookup v.voiceID cache with _ | e
      all_goals simp only []
      · rcases hg : g v.voiceID with e' | d <;> simpa [hg] using ih
      · by_cases hfresh : now - e.updatedAt < t
        · rw [if_pos hfresh]
          simpa using ih
        · rw [if_neg hfresh]
          rcases hg : g v.voiceID with e' | d <;> simpa [hg] using ih

/-- C9 (counterexample): a voice with an empty id whose (empty) id is present
in the cache with a fresh entry is returned unenriched — the empty-id
short-circuit runs before the cache check, so "substitutes the cached
record" fails for it. -/
theorem hydrate_empty_id_counterexample :
    List.lookup "" [("", (⟨⟨"", "Cached", "", "", [], ""⟩, 0⟩ : CachedVoice))]
        = some ⟨⟨"", "Cached", "", "", [], ""⟩, 0⟩ ∧
    ((1 : Int) - 0 < 100) ∧
    (hydrateVoices (fun _ => .error "network down") 1
        [⟨"", "", "", "", [], ""⟩]
        ⟨1, [("", ⟨⟨"", "Cached", "", "", [], ""⟩, 0⟩)]⟩ 100).results
      = [⟨"", "", "", "", [], ""⟩] ∧
    mergeVoice ⟨"", "", "", "", [], ""⟩ ⟨"", "Cached", "", "", [], ""⟩
      ≠ ⟨"", "", "", "", [], ""⟩ := by
  decide

/-- C9 (amended): every voice whose id is non-empty and present in the cache
with an entry strictly fresher than the TTL is substituted by the merge of
the cached record over the list entry, and a list all of whose entries are
cache-fresh in this sense triggers zero `GetVoice` network fetches. -/
theorem hydrate_fresh_uses_cache (g : String → Except String Voice) (now : Int)
    (voices : List Voice) (cache : VoiceCache) (ttl : Int) :
    (∀ (i : Nat) (v : Voice) (e : CachedVoice), voices[i]? = some v → v.voiceID ≠ "" →
      List.lookup v.voiceID cache.voices = some e → now - e.updatedAt < ttl →
      (hydrateVoices g now voices cache ttl).results[i]?
        = some (mergeVoice v e.voice)) ∧
    ((∀ v ∈ voices, v.voiceID ≠ "" ∧ ∃ e,
        List.lookup v.voiceID cache.voices = some e ∧ now - e.updatedAt < ttl) →
      (hydrateVoices g now voices cache ttl).fetches = 0) := by
  have httl : ∀ age : Int, age < ttl → age < (if ttl ≤ 0 then voiceCacheTTL else ttl) := by
    intro age hage
    by_cases h0 : ttl ≤ 0
    · rw [if_pos h0]
      have : (0 : Int) < voiceCacheTTL := by norm_num [voiceCacheTTL]
      omega
    · rwa [if_neg h0]
  unfold hydrateVoices
  constructor
  · induction voices with
    | nil =>
      intro i v e hv
      simp at hv
    | cons w rest ih =>
      intro i v e hv hid hc hfresh
      cases i with
      | zero =>
        rw [List.getElem?_cons_zero] at hv
        cases hv
        unfold hydrateList
        rw [if_neg hid, hc]
        simp only []
        rw [if_pos (httl _ hfresh)]
        exact List.getElem?_cons_zero
      | succ n =>
        rw [List.getElem?_cons_succ] at hv
        have htail := ih n v e hv hid hc hfresh
        unfold hydrateList
        by_cases hwid : w.voiceID = ""
        · simp only [hwid, if_pos]
          simpa using htail
        · rw [if_neg hwid]
          rcases hcw : List.lookup w.voiceID cache.voices with _ | ew
          all_goals simp only []
          · rcases hg : g w.voiceID with e' | d <;> simpa [hg] using htail
          · by_cases hfw : now - ew.updatedAt < (if ttl ≤ 0 then voiceCacheTTL else ttl)
            · rw [if_pos hfw]
              simpa using htail
            · rw [if_neg hfw]
              rcases hg : g w.voiceID with e' | d <;> simpa [hg] using htail
  · induction voices with
    | nil =>
      intro _
      rfl
    | cons w rest ih =>
      intro hall
      obtain ⟨hwid, e, hce, hfe⟩ := hall w (by simp)
      have htail := ih (fun v hv => hall v (by simp [hv]))
      unfold hydrateList
      rw [if_neg hwid, hce]
      simp only []
      rw [if_pos (httl _ hfe)]
      exact htail

/-- Witness for C9: a two-voice list whose entries are both fresh in the
cache yields the merged cached records and zero fetches. -/
theorem hydrate_fresh_uses_cache_witness :
    (hydrateVoices (fun _ => .error "network down") 10
        [⟨"id1", "Alpha", "", "", [], ""⟩]
        ⟨1, [("id1", ⟨⟨"id1", "Alpha", "premade", "warm", [("use", "narration")], "http://p"⟩, 4⟩)]⟩
        100).results[0]?
      = some (mergeVoice ⟨"id1", "Alpha", "", "", [], ""⟩
          ⟨"id1", "Alpha", "premade", "warm", [("use", "narration")], "http://p"⟩) ∧
    (hydrateVoices (fun _ => .error "network down") 10
        [⟨"id1", "Alpha", "", "", [], ""⟩]
        ⟨1, [("id1", ⟨⟨"id1", "Alpha", "premade", "warm", [("use", "narration")], "http://p"⟩, 4⟩)]⟩
        100).fetches = 0 :=
  ⟨(hydrate_fresh_uses_cache (fun _ => .error "network down") 10
      [⟨"id1", "Alpha", "", "", [], ""⟩]
      ⟨1, [("id1", ⟨⟨"id1", "Alpha", "premade", "warm", [("use", "narration")], "http://p"⟩, 4⟩)]⟩
      100).1 0 ⟨"id1", "Alpha", "", "", [], ""⟩
      ⟨⟨"id1", "Alpha", "premade", "warm", [("use", "narration")], "http://p"⟩, 4⟩
      (by decide) (by decide) (by decide) (by decide),
    (hydrate_fresh_uses_cache (fun _ => .error "network down") 10
      [⟨"id1", "Alpha", "", "", [], ""⟩]
      ⟨1, [("id1", ⟨⟨"id1", "Alpha", "premade", "warm", [("use", "narration")], "http://p"⟩, 4⟩)]⟩
      100).2 (by decide)⟩

/-- C10: hydration returns a list of exactly the input's length whose i-th
entry corresponds to the i-th input voice — either the input voice itself
(empty id, failed fetch) or its merge-enrichment with some detail record
(fresh cache entry or successful fetch); nothing is added, dropped or
reordered. -/
theorem hydrate_preserves_positions (g : String → Except String Voice)
    (now : Int) (voices : List Voice) (cache : VoiceCache) (ttl : Int) :
    (hydrateVoices g now voices cache ttl).results.length = voices.length ∧
    (∀ (i : Nat) (v : Voice), voices[i]? = some v →
      (hydrateVoices g now voices cache ttl).results[i]? = some v ∨
      ∃ d, (hydrateVoices g now voices cache ttl).results[i]?
        = some (mergeVoice v d)) := by
  unfold hydrateVoices
  refine ⟨hydrateList_length g now _ cache.voices voices, ?_⟩
  induction voices with
  | nil =>
    intro i v hv
    simp at hv
  | cons w rest ih =>
    intro i v hv
    cases i with
    | zero =>
      rw [List.getElem?_cons_zero] at hv
      cases hv
      unfold hydrateList
      by_cases hwid : w.voiceID = ""
      · rw [if_pos hwid]
        exact Or.inl List.getElem?_cons_zero
      · rw [if_neg hwid]
        rcases hcw : List.lookup w.voiceID cache.voices with _ | ew
        all_goals simp only []
        · rcases hg : g w.voiceID with e' | d
          · exact Or.inl List.getElem?_cons_zero
          · exact Or.inr ⟨d, List.getElem?_cons_zero⟩
        · by_cases hfw : now - ew.updatedAt < (if ttl ≤ 0 then voiceCacheTTL else ttl)
          · rw [if_pos hfw]
            exact Or.inr ⟨ew.voice, List.getElem?_cons_zero⟩
          · rw [if_neg hfw]
            rcases hg : g w.voiceID with e' | d
            · exact Or.inl List.getElem?_cons_zero
            · exact Or.inr ⟨d, List.getElem?_cons_zero⟩
    | succ n =>
      rw [List.getElem?_cons_succ] at hv
      have htail := ih n v hv
      unfold hydrateList
      by_cases hwid : w.voiceID = ""
      · simp only [hwid, if_pos]
        simpa using htail
      · rw [if_neg hwid]
        rcases hcw : List.lookup w.voiceID cache.voices with _ | ew
        all_goals simp only []
        · rcases hg : g w.voiceID with e' | d <;> simpa [hg] using htail
        · by_cases hfw : now - ew.updatedAt < (if ttl ≤ 0 then voiceCacheTTL else ttl)
          · rw [if_pos hfw]
            simpa using htail
          · rw [if_neg hfw]
            rcases hg : g w.voiceID with e' | d <;> simpa [hg] using htail

/-- Witness for C10: a three-voice list (one empty id, one cache-fresh, one
whose fetch fails) hydrates to a list of length 3 whose middle entry is an
enrichment of the middle input. -/
theorem hydrate_preserves_positions_witness :
    (hydrateVoices (fun _ => .error "boom") 10
        [⟨"", "Anon", "", "", [], ""⟩, ⟨"id1", "Alpha", "", "", [], ""⟩,
          ⟨"id2", "Beta", "", "", [], ""⟩]
        ⟨1, [("id1", ⟨⟨"id1", "Alpha", "premade", "", [], ""⟩, 4⟩)]⟩
        100).results.length = 3 ∧
    ((hydrateVoices (fun _ => .error "boom") 10
        [⟨"", "Anon", "", "", [], ""⟩, ⟨"id1", "Alpha", "", "", [], ""⟩,
          ⟨"id2", "Beta", "", "", [], ""⟩]
        ⟨1, [("id1", ⟨⟨"id1", "Alpha", "premade", "", [], ""⟩, 4⟩)]⟩
        100).results[1]? = some ⟨"id1", "Alpha", "", "", [], ""⟩ ∨
      ∃ d, (hydrateVoices (fun _ => .error "boom") 10
        [⟨"", "Anon", "", "", [], ""⟩, ⟨"id1", "Alpha", "", "", [], ""⟩,
          ⟨"id2", "Beta", "", "", [], ""⟩]
        ⟨1, [("id1", ⟨⟨"id1", "Alpha", "premade", "", [], ""⟩, 4⟩)]⟩
        100).results[1]? = some (mergeVoice ⟨"id1", "Alpha", "", "", [], ""⟩ d)) :=
  ⟨(hydrate_preserves_positions (fun _ => .error "boom") 10
      [⟨"", "Anon", "", "", [], ""⟩, ⟨"id1", "Alpha", "", "", [], ""⟩,
        ⟨"id2", "Beta", "", "", [], ""⟩]
      ⟨1, [("id1", ⟨⟨"id1", "Alpha", "premade", "", [], ""⟩, 4⟩)]⟩ 100).1,
    (hydrate_preserves_positions (fun _ => .error "boom") 10
      [⟨"", "Anon", "", "", [], ""⟩, ⟨"id1", "Alpha", "", "", [], ""⟩,
        ⟨"id2", "Beta", "", "", [], ""⟩]
      ⟨1, [("id1", ⟨⟨"id1", "Alpha", "premade", "", [], ""⟩, 4⟩)]⟩ 100).2
      1 ⟨"id1", "Alpha", "", "", [], ""⟩ (by decide)⟩
